import Mathlib

/-
Verification of the hr-breaker optimization core and its React frontend.

The caller-facing data shapes (FilterResultOut, ValidationResultOut,
OptimizeResponse, JobPostingOut) are embedded from frontend/src/api.ts.
The Optimize page logic (canOptimize, handleOptimize, the result block)
is embedded from the Optimize page component.  The backend core
(orchestration loop, filter registry, validation aggregator) is not part
of the available sources, so those operations are modelled from the
design document, as marked in their doc comments.
-/

namespace HrBreaker

/- ## Generic key-based insertion sort

Used to model the Filter Registry's priority ordering (the registry holds
filters in a fixed priority order; parallel mode re-sorts collected
outcomes into priority order before Verdict construction). -/

/-- Insert an element into a list assumed sorted by the Nat key. -/
def insertKey {α : Type} (key : α → Nat) (a : α) : List α → List α
  | [] => [a]
  | b :: l => if key a ≤ key b then a :: b :: l else b :: insertKey key a l

/-- Insertion sort by a Nat key. -/
def sortKey {α : Type} (key : α → Nat) : List α → List α
  | [] => []
  | a :: l => insertKey key a (sortKey key l)

theorem insertKey_perm {α : Type} (key : α → Nat) (a : α) (l : List α) :
    List.Perm (insertKey key a l) (a :: l) := by
  induction l with
  | nil => simp [insertKey]
  | cons b l ih =>
    simp only [insertKey]
    split
    · exact List.Perm.refl _
    · exact List.Perm.trans (List.Perm.cons b ih) (List.Perm.swap a b l)

theorem sortKey_perm {α : Type} (key : α → Nat) (l : List α) :
    List.Perm (sortKey key l) l := by
  induction l with
  | nil => simp [sortKey]
  | cons a l ih =>
    exact List.Perm.trans (insertKey_perm key a (sortKey key l)) (List.Perm.cons a ih)

theorem insertKey_sorted {α : Type} (key : α → Nat) (a : α) (l : List α)
    (h : List.Pairwise (fun x y => key x ≤ key y) l) :
    List.Pairwise (fun x y => key x ≤ key y) (insertKey key a l) := by
  induction l with
  | nil => simp [insertKey]
  | cons b l ih =>
    rcases List.pairwise_cons.mp h with ⟨hb, hl⟩
    simp only [insertKey]
    split
    · rename_i hab
      refine List.pairwise_cons.mpr ⟨?_, h⟩
      intro c hc
      rcases List.mem_cons.mp hc with hc | hc
      · exact hc ▸ hab
      · exact Nat.le_trans hab (hb c hc)
    · rename_i hab
      refine List.pairwise_cons.mpr ⟨?_, ih hl⟩
      intro c hc
      have hc2 : c ∈ a :: l := (insertKey_perm key a l).mem_iff.mp hc
      rcases List.mem_cons.mp hc2 with hc2 | hc2
      · subst hc2; omega
      · exact hb c hc2

theorem sortKey_sorted {α : Type} (key : α → Nat) (l : List α) :
    List.Pairwise (fun x y => key x ≤ key y) (sortKey key l) := by
  induction l with
  | nil => simp [sortKey]
  | cons a l ih => exact insertKey_sorted key a _ ih

/-- A list sorted weakly by key that is a permutation of a list sorted
strictly by key is equal to it. -/
theorem eq_of_perm_of_key_sorted {α : Type} (key : α → Nat) :
    ∀ (l m : List α), List.Perm m l →
      List.Pairwise (fun x y => key x ≤ key y) m →
      List.Pairwise (fun x y => key x < key y) l → m = l := by
  intro l
  induction l with
  | nil =>
    intro m hp _ _
    exact hp.eq_nil
  | cons a l ih =>
    intro m hp hm hl
    rcases List.pairwise_cons.mp hl with ⟨ha, hl'⟩
    cases m with
    | nil => exact absurd hp.symm.eq_nil (by simp)
    | cons b m' =>
      rcases List.pairwise_cons.mp hm with ⟨hb, hm'⟩
      have hba : b = a := by
        have hbmem : b ∈ a :: l := hp.mem_iff.mp (List.mem_cons_self b m')
        rcases List.mem_cons.mp hbmem with h | h
        · exact h
        · exfalso
          have h1 : key a < key b := ha b h
          have hamem : a ∈ b :: m' := hp.mem_iff.mpr (List.mem_cons_self a l)
          rcases List.mem_cons.mp hamem with h2 | h2
          · subst h2; omega
          · have h3 : key b ≤ key a := hb a h2
            omega
      subst hba
      have hperm' : List.Perm m' l := hp.cons_inv
      rw [ih m' hperm' hm' hl']

/- ## Data model

The caller-facing shapes below are embedded from frontend/src/api.ts.
Scores and thresholds (TypeScript number) are modelled as rationals. -/

/-- Embedded from api.ts: JobPostingOut, the normalized job posting
(the JobContext of the design document). -/
structure JobPostingOut where
  title : String
  company : String
  requirements : List String
  keywords : List String
  description : String

/-- A Candidate is the generated document content for one iteration. -/
abbrev Candidate := String

/-- Embedded from api.ts: FilterResultOut, one filter's outcome
(the FilterOutcome of the design document). -/
structure FilterResultOut where
  filter_name : String
  passed : Bool
  score : Rat
  threshold : Rat
  issues : List String
  suggestions : List String

/-- Embedded from api.ts: ValidationResultOut, the aggregated verdict
carried to the caller (the Verdict of the design document). -/
structure ValidationResultOut where
  passed : Bool
  results : List FilterResultOut

/-- Embedded from api.ts: OptimizeResponse, the optimize endpoint's
response shape. -/
structure OptimizeResponse where
  success : Bool
  pdf_base64 : Option String
  pdf_filename : Option String
  validation : ValidationResultOut
  job : JobPostingOut
  error : Option String

/- ## Validation Aggregator -/

/-- Modelled from the spec: the Validation Aggregator's aggregate
operation combines per-filter outcomes into one Verdict whose overall
passed flag is the logical AND across all outcomes.  The backend
aggregator module is not among the available sources. -/
def aggregate (outcomes : List FilterResultOut) : ValidationResultOut :=
  { passed := outcomes.all (fun o => o.passed), results := outcomes }

/-- Modelled from the spec: one entry of a FeedbackPayload, the issues
and suggestions contributed by one failed filter. -/
structure FeedbackEntry where
  filter_name : String
  issues : List String
  suggestions : List String

/-- Modelled from the spec: a FeedbackPayload is the consolidated
failure information fed back into the next generation attempt. -/
abbrev FeedbackPayload := List FeedbackEntry

/-- Modelled from the spec: deduplication by filter identifier, keeping
the first occurrence of each filter name not already seen. -/
def dedupByName (seen : List String) : List FilterResultOut → List FilterResultOut
  | [] => []
  | o :: os =>
    if o.filter_name ∈ seen then dedupByName seen os
    else o :: dedupByName (o.filter_name :: seen) os

/-- Modelled from the spec: derive_feedback takes the outcomes of a
Verdict where passed is false, preserves their order (which is the
priority order of the Verdict's outcome list), deduplicates by filter
identifier, and packages each one's issues and suggestions.  The
configurable size cap of the design document is left at its no-cap
instantiation, which the claims do not exercise. -/
def derive_feedback (v : ValidationResultOut) : FeedbackPayload :=
  (dedupByName [] (v.results.filter (fun o => !o.passed))).map
    (fun o => { filter_name := o.filter_name, issues := o.issues,
                suggestions := o.suggestions })

theorem dedupByName_sublist (seen : List String) (l : List FilterResultOut) :
    List.Sublist (dedupByName seen l) l := by
  induction l generalizing seen with
  | nil => simp [dedupByName]
  | cons o os ih =>
    simp only [dedupByName]
    split
    · exact List.Sublist.cons o (ih seen)
    · exact List.Sublist.cons₂ o (ih (o.filter_name :: seen))

theorem dedupByName_not_seen (seen : List String) (l : List FilterResultOut) :
    ∀ o ∈ dedupByName seen l, o.filter_name ∉ seen := by
  induction l generalizing seen with
  | nil => simp [dedupByName]
  | cons o os ih =>
    simp only [dedupByName]
    split
    · exact ih seen
    · rename_i hnot
      intro p hp
      rcases List.mem_cons.mp hp with h | h
      · subst h; exact hnot
      · intro hmem
        exact ih (o.filter_name :: seen) p h (List.mem_cons_of_mem _ hmem)

theorem dedupByName_names_distinct (seen : List String) (l : List FilterResultOut) :
    List.Pairwise (fun a b => a.filter_name ≠ b.filter_name) (dedupByName seen l) := by
  induction l generalizing seen with
  | nil => simp [dedupByName]
  | cons o os ih =>
    simp only [dedupByName]
    split
    · exact ih seen
    · refine List.pairwise_cons.mpr ⟨?_, ih (o.filter_name :: seen)⟩
      intro b hb heq
      exact dedupByName_not_seen _ os b hb (heq ▸ List.mem_cons_self _ _)

/- ## Filter capability and Filter Registry -/

/-- Modelled from the spec: the raw result of one filter evaluation
attempt — either a score with explanatory issues and suggestions, or a
FilterExecutionError (dependency unavailable, per-filter timeout)
carrying a description of the failure. -/
inductive EvalResult where
  | ok (score : Rat) (issues : List String) (suggestions : List String)
  | failed (msg : String)

/-- Modelled from the spec: a Filter is a pure scoring function over a
candidate plus job context, with its identifier, priority, threshold and
filter-specific comparator supplied at construction.  The backend
filters package is not among the available sources. -/
structure Filter where
  name : String
  priority : Nat
  threshold : Rat
  cmp : Rat → Rat → Bool
  evalRaw : Candidate → JobPostingOut → EvalResult

/-- Modelled from the spec: evaluate wraps the raw evaluation at the
filter boundary.  On success, passed is fully determined by score and
threshold through the filter's comparator; on a FilterExecutionError the
outcome is downgraded in place to passed false, score 0, and a single
issue describing the failure — nothing escapes the boundary. -/
def Filter.evaluate (f : Filter) (c : Candidate) (j : JobPostingOut) : FilterResultOut :=
  match f.evalRaw c j with
  | EvalResult.ok score issues suggestions =>
    { filter_name := f.name, passed := f.cmp score f.threshold, score := score,
      threshold := f.threshold, issues := issues, suggestions := suggestions }
  | EvalResult.failed msg =>
    { filter_name := f.name, passed := false, score := 0,
      threshold := f.threshold, issues := [msg], suggestions := [] }

/-- Modelled from the spec: the Filter Registry holds the registered
filters; runs present them in priority order (lower number first). -/
structure Registry where
  filters : List Filter

/-- Modelled from the spec: sequential mode — every filter is evaluated,
one at a time in priority order, with no short-circuit, and the Verdict
is built by the aggregator from the outcomes in that order. -/
def Registry.runSeq (r : Registry) (c : Candidate) (j : JobPostingOut) : ValidationResultOut :=
  aggregate ((sortKey Filter.priority r.filters).map (fun f => f.evaluate c j))

/-- Modelled from the spec: parallel mode — all filters are evaluated
concurrently and their outcomes collected in completion order, modelled
here by an arbitrary permutation of the registered filters; the
collected (priority, outcome) pairs are then re-sorted into priority
order before Verdict construction. -/
def Registry.runPar (r : Registry) (completion : List Filter) (c : Candidate)
    (j : JobPostingOut) : ValidationResultOut :=
  aggregate ((sortKey Prod.fst (completion.map
    (fun f => (f.priority, f.evaluate c j)))).map Prod.snd)

/- ## Orchestrator -/

/-- Modelled from the spec: one IterationRecord of the run history. -/
structure IterationRecord where
  index : Nat
  candidate : Candidate
  verdict : ValidationResultOut
  artifact : Option String

/-- Modelled from the spec: the Generator Port capability — produce a
candidate from resume text, job context and optional feedback, or fail
with a GenerationError message. -/
abbrev Generator := String → JobPostingOut → Option FeedbackPayload → Except String Candidate

/-- Modelled from the spec: the terminal outcome of a run — ACCEPTED,
EXHAUSTED, or the distinct GenerationError variant. -/
inductive RunOutcome where
  | accepted (candidate : Candidate) (verdict : ValidationResultOut)
  | exhausted (candidate : Candidate) (verdict : ValidationResultOut)
  | generationError (msg : String)

/-- Modelled from the spec: the RunResult handed to the caller, with the
append-only IterationRecord sequence; gen_calls instruments how many
times the Generator Port was invoked during the run. -/
structure RunResult where
  outcome : RunOutcome
  records : List IterationRecord
  gen_calls : Nat

/-- Modelled from the spec: the Orchestrator owns the registry and the
iteration budget fixed at construction. -/
structure Orchestrator where
  max_iterations : Nat
  registry : Registry

/-- Modelled from the spec: Orchestrator construction validates its
configuration — max_iterations of zero or below, or an empty filter set,
is rejected with a ConfigurationError before any run starts. -/
def mkOrchestrator (max_iterations : Int) (filters : List Filter) :
    Except String Orchestrator :=
  if max_iterations ≤ 0 then
    Except.error "ConfigurationError: max_iterations must be positive"
  else if filters.isEmpty then
    Except.error "ConfigurationError: empty filter set"
  else
    Except.ok { max_iterations := max_iterations.toNat, registry := { filters := filters } }

/-- Modelled from the spec: the DRAFTING, SCORING, DECIDING loop.  The
remaining argument counts how many further Generator calls are allowed
after the current one (max_iterations minus iteration minus one).  A
Generator failure is fatal: the run stops at once with the
GenerationError variant and no IterationRecord for the failed attempt.
Otherwise the candidate is scored, its IterationRecord appended, and the
decision taken: accepted on a passing Verdict, exhausted when the budget
is used up, else retry with the derived feedback. -/
def runAux (reg : Registry) (gen : Generator) (resume : String) (job : JobPostingOut)
    (remaining iteration : Nat) (fb : Option FeedbackPayload)
    (recs : List IterationRecord) (calls : Nat) : RunResult :=
  match gen resume job fb with
  | Except.error msg =>
    { outcome := RunOutcome.generationError msg, records := recs, gen_calls := calls + 1 }
  | Except.ok cand =>
    let v := reg.runSeq cand job
    let recs2 := recs ++ [{ index := iteration, candidate := cand, verdict := v,
                            artifact := none }]
    if v.passed then
      { outcome := RunOutcome.accepted cand v, records := recs2, gen_calls := calls + 1 }
    else
      match remaining with
      | 0 =>
        { outcome := RunOutcome.exhausted cand v, records := recs2, gen_calls := calls + 1 }
      | r + 1 =>
        runAux reg gen resume job r (iteration + 1) (some (derive_feedback v)) recs2 (calls + 1)

/-- Modelled from the spec: the caller-facing run entry point — initial
state DRAFTING with no feedback and iteration zero. -/
def Orchestrator.run (o : Orchestrator) (gen : Generator) (resume : String)
    (job : JobPostingOut) : RunResult :=
  runAux o.registry gen resume job (o.max_iterations - 1) 0 none [] 0

/- ## Optimize page (frontend)

Embedded from the Optimize page component: the job-input mode, the
component state consulted by the optimize button, the guard canOptimize,
the request body built by handleOptimize, and the result block. -/

/-- The job input mode toggle of the Optimize page: URL or pasted text. -/
inductive JobMode where
  | url
  | text
deriving DecidableEq

/-- The component state handleOptimize reads: the resume textarea, the
job textarea, the selected job mode, and the loading flag set while a
request is in flight. -/
structure OptimizeState where
  resumeContent : String
  jobInput : String
  jobMode : JobMode
  loading : Bool

/-- Embedded from api.ts: the parameter object accepted by the optimize
client function (undefined fields modelled as none). -/
structure OptimizeParams where
  resume_content : String
  job_text : Option String
  job_url : Option String
  max_iterations : Option Nat
  parallel : Option Bool
deriving DecidableEq

/-- The trim of JavaScript strings, which handleOptimize applies to the
textarea contents: leading and trailing whitespace characters removed. -/
def jsTrim (s : String) : String :=
  String.mk (((s.data.dropWhile Char.isWhitespace).reverse.dropWhile
    Char.isWhitespace).reverse)

/-- Embedded from the Optimize page: hasResume is the truthiness of the
trimmed resume content. -/
def hasResume (s : OptimizeState) : Bool := !(jsTrim s.resumeContent == "")

/-- Embedded from the Optimize page: hasJob is the truthiness of the
trimmed job input. -/
def hasJob (s : OptimizeState) : Bool := !(jsTrim s.jobInput == "")

/-- Embedded from the Optimize page: canOptimize gates both the button
and the handler. -/
def canOptimize (s : OptimizeState) : Bool := hasResume s && hasJob s && !s.loading

/-- Embedded from the Optimize page: handleOptimize returns early when
canOptimize is false (no request), otherwise builds the request body
sent to the optimize endpoint: trimmed resume content, job_text only in
text mode, job_url only in url mode, parallel always true, and no
max_iterations override. -/
def handleOptimize (s : OptimizeState) : Option OptimizeParams :=
  if !canOptimize s then none
  else some
    { resume_content := jsTrim s.resumeContent
      job_text := match s.jobMode with
        | JobMode.text => some (jsTrim s.jobInput)
        | JobMode.url => none
      job_url := match s.jobMode with
        | JobMode.url => some (jsTrim s.jobInput)
        | JobMode.text => none
      max_iterations := none
      parallel := some true }

/-- JavaScript truthiness of a nullable string: null and the empty
string are falsy. -/
def truthyStr : Option String → Bool
  | none => false
  | some s => !(s == "")

/-- Embedded from the Optimize page result block: the download link is
rendered exactly when both pdf_filename and pdf_base64 are truthy (a
conjunction of the two fields guards the anchor element). -/
def showsPdfLink (r : OptimizeResponse) : Bool :=
  truthyStr r.pdf_filename && truthyStr r.pdf_base64

/-- Embedded from the Optimize page result block: the status line is
selected by validation.passed alone. -/
def statusMessage (r : OptimizeResponse) : String :=
  if r.validation.passed then "Все проверки пройдены." else "Часть проверок не пройдена."

/- ## Helper lemmas and concrete instances -/

/-- Unfolding of the loop at a Generator failure. -/
theorem runAux_error (reg : Registry) (gen : Generator) (resume : String)
    (job : JobPostingOut) (remaining iteration : Nat) (fb : Option FeedbackPayload)
    (recs : List IterationRecord) (calls : Nat) (msg : String)
    (h : gen resume job fb = Except.error msg) :
    runAux reg gen resume job remaining iteration fb recs calls =
      { outcome := RunOutcome.generationError msg, records := recs,
        gen_calls := calls + 1 } := by
  rw [runAux.eq_def, h]

/-- The loop appends at most remaining plus one records and makes at
most remaining plus one Generator calls beyond its starting point. -/
theorem runAux_bounds (reg : Registry) (gen : Generator) (resume : String)
    (job : JobPostingOut) :
    ∀ (remaining iteration : Nat) (fb : Option FeedbackPayload)
      (recs : List IterationRecord) (calls : Nat),
      (runAux reg gen resume job remaining iteration fb recs calls).records.length
          ≤ recs.length + remaining + 1
      ∧ (runAux reg gen resume job remaining iteration fb recs calls).gen_calls
          ≤ calls + remaining + 1 := by
  intro remaining
  induction remaining with
  | zero =>
    intro iteration fb recs calls
    rw [runAux.eq_def]
    cases hg : gen resume job fb with
    | error msg => constructor <;> simp
    | ok cand =>
      simp only []
      split
      · constructor <;> simp
      · constructor <;> simp
  | succ r ih =>
    intro iteration fb recs calls
    rw [runAux.eq_def]
    cases hg : gen resume job fb with
    | error msg => constructor <;> simp <;> omega
    | ok cand =>
      simp only []
      split
      · constructor <;> simp <;> omega
      · have h := ih (iteration + 1) (some (derive_feedback (reg.runSeq cand job)))
          (recs ++ [{ index := iteration, candidate := cand, verdict := reg.runSeq cand job,
                      artifact := none }]) (calls + 1)
        have h1 := h.1
        have h2 := h.2
        simp only [List.length_append, List.length_cons, List.length_nil] at h1
        constructor
        · omega
        · omega

/-- A filter that passes every candidate. -/
def fA : Filter :=
  { name := "content_length", priority := 0, threshold := 1/2,
    cmp := fun s t => decide (t ≤ s), evalRaw := fun _ _ => EvalResult.ok 1 [] [] }

/-- A filter whose score falls short of its threshold. -/
def fB : Filter :=
  { name := "keyword_matcher", priority := 4, threshold := 7/10,
    cmp := fun s t => decide (t ≤ s),
    evalRaw := fun _ _ => EvalResult.ok (3/5) ["keyword coverage low"] ["add python"] }

/-- A filter whose dependency is unavailable. -/
def brokenFilter : Filter :=
  { name := "hallucination_checker", priority := 3, threshold := 1/2,
    cmp := fun s t => decide (t ≤ s),
    evalRaw := fun _ _ => EvalResult.failed "dependency unavailable" }

/-- A registry registered out of priority order. -/
def regW : Registry := { filters := [fB, fA] }

/-- A concrete orchestrator over regW with a budget of two iterations. -/
def oW : Orchestrator := { max_iterations := 2, registry := regW }

/-- A concrete job context. -/
def jW : JobPostingOut :=
  { title := "Engineer", company := "Acme", requirements := ["python"],
    keywords := ["python"], description := "backend role" }

/-- A generator that always succeeds. -/
def genW : Generator := fun _ _ _ => Except.ok "<html>resume</html>"

/-- A generator that always fails upstream. -/
def badGen : Generator := fun _ _ _ => Except.error "quota exceeded"

/-- A passing outcome. -/
def oPass : FilterResultOut :=
  { filter_name := "keyword_matcher", passed := true, score := 1, threshold := 1/2,
    issues := [], suggestions := [] }

/-- A failing outcome. -/
def oFail : FilterResultOut :=
  { filter_name := "llm_checker", passed := false, score := 0, threshold := 1/2,
    issues := ["score below threshold"], suggestions := ["add keywords"] }

/-- A concrete verdict with one passing and one failing outcome. -/
def vW : ValidationResultOut := { passed := false, results := [oPass, oFail] }

/-- The feedback entry derived from the failing outcome of vW. -/
def eW : FeedbackEntry :=
  { filter_name := "llm_checker", issues := ["score below threshold"],
    suggestions := ["add keywords"] }

/- ## Claim theorems -/

/-- C1: for every Verdict produced by the Validation Aggregator and
carried in the caller-facing ValidationResultOut, the overall passed
flag holds exactly when every outcome in its outcome list passed — so a
Verdict is never built with passed true while some outcome failed, and a
single failing filter fails the whole candidate. -/
theorem aggregate_passed_iff_all (os : List FilterResultOut) :
    ((aggregate os).passed = true ↔ ∀ o ∈ os, o.passed = true)
    ∧ (aggregate os).results = os := by
  constructor
  · simp [aggregate, List.all_eq_true]
  · rfl

/-- Witness for C1: on a list with one passing and one failing outcome
the aggregated flag is false. -/
theorem aggregate_passed_iff_all_inst :
    (((aggregate [oPass, oFail]).passed = true ↔ ∀ o ∈ [oPass, oFail], o.passed = true)
      ∧ (aggregate [oPass, oFail]).results = [oPass, oFail])
    ∧ (aggregate [oPass, oFail]).passed = false :=
  ⟨aggregate_passed_iff_all [oPass, oFail], rfl⟩

/-- C4: every entry of the FeedbackPayload derived from a Verdict takes
its identifier, issues and suggestions from an outcome with passed
false; the entries preserve the order of the failing outcomes (the
Verdict's priority order); and the entries are deduplicated by filter
identifier.  Nothing from a passing outcome is ever included. -/
theorem feedback_only_failed (v : ValidationResultOut) :
    (∀ e ∈ derive_feedback v, ∃ o, o ∈ v.results ∧ o.passed = false
        ∧ e.filter_name = o.filter_name ∧ e.issues = o.issues
        ∧ e.suggestions = o.suggestions)
    ∧ List.Sublist ((derive_feedback v).map (fun e => e.filter_name))
        ((v.results.filter (fun o => !o.passed)).map (fun o => o.filter_name))
    ∧ ((derive_feedback v).map (fun e => e.filter_name)).Nodup := by
  refine ⟨?_, ?_, ?_⟩
  · intro e he
    rcases List.mem_map.mp he with ⟨o, ho, rfl⟩
    have ho2 : o ∈ v.results.filter (fun o => !o.passed) :=
      (dedupByName_sublist [] _).subset ho
    rcases List.mem_filter.mp ho2 with ⟨hmem, hfail⟩
    exact ⟨o, hmem, by simpa using hfail, rfl, rfl, rfl⟩
  · unfold derive_feedback
    rw [List.map_map]
    exact List.Sublist.map _ (dedupByName_sublist [] _)
  · unfold derive_feedback
    rw [List.map_map]
    have h := dedupByName_names_distinct [] (v.results.filter (fun o => !o.passed))
    exact List.pairwise_map.mpr (h.imp (fun hne => hne))

/-- Witness for C4: the payload derived from vW consists of the single
entry eW, which comes from the failing outcome oFail. -/
theorem feedback_only_failed_inst :
    derive_feedback vW = [eW]
    ∧ ∃ o, o ∈ vW.results ∧ o.passed = false ∧ eW.filter_name = o.filter_name
        ∧ eW.issues = o.issues ∧ eW.suggestions = o.suggestions :=
  ⟨rfl, (feedback_only_failed vW).1 eW
    ((show derive_feedback vW = [eW] from rfl) ▸ List.mem_cons_self eW [])⟩

/-- C5: when a filter evaluation cannot complete, evaluate returns a
FilterOutcome with passed false, score zero, and a single issue
describing the failure — the failure is absorbed at the filter boundary
instead of aborting the run. -/
theorem filter_failure_downgraded (f : Filter) (c : Candidate) (j : JobPostingOut)
    (msg : String) (h : f.evalRaw c j = EvalResult.failed msg) :
    f.evaluate c j =
      { filter_name := f.name, passed := false, score := 0,
        threshold := f.threshold, issues := [msg], suggestions := [] }
    ∧ (f.evaluate c j).issues.length = 1 := by
  unfold Filter.evaluate
  rw [h]
  exact ⟨rfl, rfl⟩

/-- Witness for C5: the broken filter's outcome on a concrete candidate
and job context. -/
theorem filter_failure_downgraded_inst :
    brokenFilter.evalRaw "doc" jW = EvalResult.failed "dependency unavailable"
    ∧ brokenFilter.evaluate "doc" jW =
      { filter_name := "hallucination_checker", passed := false, score := 0,
        threshold := 1/2, issues := ["dependency unavailable"], suggestions := [] }
    ∧ (brokenFilter.evaluate "doc" jW).issues.length = 1 :=
  ⟨rfl, (filter_failure_downgraded brokenFilter "doc" jW "dependency unavailable" rfl).1,
    (filter_failure_downgraded brokenFilter "doc" jW "dependency unavailable" rfl).2⟩

/-- C7: in sequential mode the registry evaluates every registered
filter — no short-circuit on first failure — and the Verdict contains
exactly one outcome per registered filter, listed in priority order
(lower priority number first). -/
theorem runSeq_every_filter_priority_order (r : Registry) (c : Candidate)
    (j : JobPostingOut) :
    (r.runSeq c j).results
        = (sortKey Filter.priority r.filters).map (fun f => f.evaluate c j)
    ∧ List.Perm (sortKey Filter.priority r.filters) r.filters
    ∧ List.Pairwise (fun f g => f.priority ≤ g.priority) (sortKey Filter.priority r.filters)
    ∧ (r.runSeq c j).results.length = r.filters.length
    ∧ ∀ f, f ∈ r.filters → f.evaluate c j ∈ (r.runSeq c j).results := by
  refine ⟨rfl, sortKey_perm _ _, sortKey_sorted _ _, ?_, ?_⟩
  · show ((sortKey Filter.priority r.filters).map (fun f => f.evaluate c j)).length
        = r.filters.length
    rw [List.length_map]
    exact (sortKey_perm Filter.priority r.filters).length_eq
  · intro f hf
    have hmem : f ∈ sortKey Filter.priority r.filters :=
      (sortKey_perm Filter.priority r.filters).mem_iff.mpr hf
    exact List.mem_map_of_mem _ hmem

/-- Witness for C7: in the registry registered out of priority order,
the lower-priority filter fA comes first in the verdict, both filters
are evaluated, and the failing filter keyword_matcher is present. -/
theorem runSeq_every_filter_priority_order_inst :
    fB ∈ regW.filters
    ∧ fB.evaluate "doc" jW ∈ (regW.runSeq "doc" jW).results
    ∧ (regW.runSeq "doc" jW).results.length = regW.filters.length :=
  ⟨List.mem_cons_self fB [fA],
    (runSeq_every_filter_priority_order regW "doc" jW).2.2.2.2 fB (List.mem_cons_self fB [fA]),
    (runSeq_every_filter_priority_order regW "doc" jW).2.2.2.1⟩

/-- C3: for every Candidate and JobContext, the parallel run — whose
outcomes are collected in an arbitrary completion order and then
re-sorted into priority order — produces exactly the sequential run's
Verdict, identical outcome list included; the parallel flag can affect
latency only, never the decision or any outcome. -/
theorem runPar_eq_runSeq (r : Registry) (completion : List Filter) (c : Candidate)
    (j : JobPostingOut)
    (hperm : List.Perm completion r.filters)
    (hdist : List.Pairwise (fun f g => f.priority ≠ g.priority) r.filters) :
    r.runPar completion c j = r.runSeq c j := by
  have hperm2 := sortKey_perm Filter.priority r.filters
  have hsorted := sortKey_sorted Filter.priority r.filters
  have hdist2 : List.Pairwise (fun f g => f.priority ≠ g.priority)
      (sortKey Filter.priority r.filters) :=
    (List.Perm.pairwise_iff (fun h => h.symm) hperm2).mpr hdist
  have hstrict : List.Pairwise (fun f g => f.priority < g.priority)
      (sortKey Filter.priority r.filters) :=
    List.Pairwise.imp₂ (fun _ _ hle hne => Nat.lt_of_le_of_ne hle hne) hsorted hdist2
  have hstrictPairs : List.Pairwise (fun x y => Prod.fst x < Prod.fst y)
      ((sortKey Filter.priority r.filters).map (fun f => (f.priority, f.evaluate c j))) :=
    List.pairwise_map.mpr (hstrict.imp (fun h => h))
  have hpermPairs : List.Perm
      (completion.map (fun f => (f.priority, f.evaluate c j)))
      ((sortKey Filter.priority r.filters).map (fun f => (f.priority, f.evaluate c j))) :=
    List.Perm.map _ (hperm.trans hperm2.symm)
  have key : sortKey Prod.fst (completion.map (fun f => (f.priority, f.evaluate c j)))
      = (sortKey Filter.priority r.filters).map (fun f => (f.priority, f.evaluate c j)) :=
    eq_of_perm_of_key_sorted Prod.fst _ _
      ((sortKey_perm Prod.fst _).trans hpermPairs)
      (sortKey_sorted Prod.fst _) hstrictPairs
  unfold Registry.runPar Registry.runSeq
  rw [key, List.map_map]
  rfl

/-- Witness for C3: a completion order opposite to the registration
order yields the same Verdict as the sequential run. -/
theorem runPar_eq_runSeq_inst :
    List.Perm [fA, fB] regW.filters
    ∧ List.Pairwise (fun f g => f.priority ≠ g.priority) regW.filters
    ∧ regW.runPar [fA, fB] "doc" jW = regW.runSeq "doc" jW :=
  ⟨List.Perm.swap fB fA [],
    List.Pairwise.cons (fun g hg => by
      rcases List.mem_cons.mp hg with h | h
      · subst h; decide
      · simp at h) (List.pairwise_singleton _ fA),
    runPar_eq_runSeq regW [fA, fB] "doc" jW (List.Perm.swap fB fA [])
      (List.Pairwise.cons (fun g hg => by
        rcases List.mem_cons.mp hg with h | h
        · subst h; decide
        · simp at h) (List.pairwise_singleton _ fA))⟩

/-- C2: for an Orchestrator accepted at construction, every run
terminates with at most max_iterations Generator calls and accumulates
at most max_iterations IterationRecords. -/
theorem run_bounded_by_max_iterations (mi : Int) (fs : List Filter) (o : Orchestrator)
    (gen : Generator) (resume : String) (job : JobPostingOut)
    (h : mkOrchestrator mi fs = Except.ok o) :
    (o.run gen resume job).records.length ≤ o.max_iterations
    ∧ (o.run gen resume job).gen_calls ≤ o.max_iterations := by
  have hpos : 0 < o.max_iterations := by
    unfold mkOrchestrator at h
    split at h
    · exact absurd h (by simp)
    · split at h
      · exact absurd h (by simp)
      · rename_i h1 h2
        rcases Except.ok.inj h with rfl
        show 0 < mi.toNat
        omega
  have hb := runAux_bounds o.registry gen resume job (o.max_iterations - 1) 0 none [] 0
  unfold Orchestrator.run
  have h1 := hb.1
  have h2 := hb.2
  simp only [List.length_nil] at h1
  constructor
  · omega
  · omega

/-- Witness for C2: a concrete construction and run over the registry
regW with budget two. -/
theorem run_bounded_by_max_iterations_inst :
    mkOrchestrator 2 [fB, fA] = Except.ok oW
    ∧ (oW.run genW "resume" jW).records.length ≤ oW.max_iterations
    ∧ (oW.run genW "resume" jW).gen_calls ≤ oW.max_iterations :=
  ⟨rfl,
    (run_bounded_by_max_iterations 2 [fB, fA] oW genW "resume" jW rfl).1,
    (run_bounded_by_max_iterations 2 [fB, fA] oW genW "resume" jW rfl).2⟩

/-- C6: a Generator failure terminates the loop at once with the
distinct generationError outcome — not accepted, not exhausted — the
call is not retried, and no IterationRecord is appended for the failed
attempt, so the failed draft is never scored. -/
theorem generation_error_fatal (reg : Registry) (gen : Generator) (resume : String)
    (job : JobPostingOut) (remaining iteration : Nat) (fb : Option FeedbackPayload)
    (recs : List IterationRecord) (calls : Nat) (msg : String)
    (h : gen resume job fb = Except.error msg) :
    runAux reg gen resume job remaining iteration fb recs calls =
      { outcome := RunOutcome.generationError msg, records := recs,
        gen_calls := calls + 1 }
    ∧ (∀ cand v, RunOutcome.generationError msg ≠ RunOutcome.accepted cand v
        ∧ RunOutcome.generationError msg ≠ RunOutcome.exhausted cand v) := by
  refine ⟨runAux_error reg gen resume job remaining iteration fb recs calls msg h, ?_⟩
  intro cand v
  exact ⟨by simp, by simp⟩

/-- Witness for C6: a generator failing on its first call ends the whole
run with zero IterationRecords and a single Generator call. -/
theorem generation_error_fatal_inst :
    badGen "resume" jW none = Except.error "quota exceeded"
    ∧ oW.run badGen "resume" jW =
      { outcome := RunOutcome.generationError "quota exceeded", records := [],
        gen_calls := 1 } :=
  ⟨rfl,
    (generation_error_fatal oW.registry badGen "resume" jW (oW.max_iterations - 1) 0 none
      [] 0 "quota exceeded" rfl).1⟩

/-- C8: construction with max_iterations at most zero or an empty filter
set yields a ConfigurationError — and only then — before any run starts;
a valid construction succeeds, and every run of a validly constructed
Orchestrator terminates in one of the three run outcomes, never a
configuration failure. -/
theorem config_validated_at_construction (mi : Int) (fs : List Filter) :
    ((∃ e, mkOrchestrator mi fs = Except.error e) ↔ mi ≤ 0 ∨ fs = [])
    ∧ (mi ≤ 0 ∨ fs = [] → ∀ o, mkOrchestrator mi fs ≠ Except.ok o)
    ∧ (0 < mi → fs ≠ [] →
        mkOrchestrator mi fs =
          Except.ok { max_iterations := mi.toNat, registry := { filters := fs } })
    ∧ (∀ o gen resume job, mkOrchestrator mi fs = Except.ok o →
        (∃ c v, (Orchestrator.run o gen resume job).outcome = RunOutcome.accepted c v)
        ∨ (∃ c v, (Orchestrator.run o gen resume job).outcome = RunOutcome.exhausted c v)
        ∨ (∃ m, (Orchestrator.run o gen resume job).outcome = RunOutcome.generationError m)) := by
  refine ⟨?_, ?_, ?_, ?_⟩
  · unfold mkOrchestrator
    constructor
    · intro he
      rcases he with ⟨e, he⟩
      split at he
      · rename_i h1; exact Or.inl h1
      · split at he
        · rename_i h2; exact Or.inr (List.isEmpty_iff.mp h2)
        · exact absurd he (by simp)
    · intro hor
      split
      · exact ⟨_, rfl⟩
      · split
        · exact ⟨_, rfl⟩
        · rename_i h1 h2
          exfalso
          rcases hor with h | h
          · exact h1 h
          · exact h2 (by simp [h])
  · intro hor o ho
    unfold mkOrchestrator at ho
    split at ho
    · exact absurd ho (by simp)
    · split at ho
      · exact absurd ho (by simp)
      · rename_i h1 h2
        rcases hor with h | h
        · exact h1 h
        · exact h2 (by simp [h])
  · intro hpos hne
    unfold mkOrchestrator
    rw [if_neg (by omega), if_neg (by simp [List.isEmpty_iff, hne])]
  · intro o gen resume job _
    cases ho : (Orchestrator.run o gen resume job).outcome with
    | accepted c v => exact Or.inl ⟨c, v, rfl⟩
    | exhausted c v => exact Or.inr (Or.inl ⟨c, v, rfl⟩)
    | generationError m => exact Or.inr (Or.inr ⟨m, rfl⟩)

/-- Witness for C8: a zero budget and an empty filter set are rejected,
a valid configuration is accepted. -/
theorem config_validated_at_construction_inst :
    (∃ e, mkOrchestrator 0 [fA] = Except.error e)
    ∧ (∃ e, mkOrchestrator 3 [] = Except.error e)
    ∧ mkOrchestrator 2 [fB, fA] =
        Except.ok { max_iterations := (2 : Int).toNat, registry := { filters := [fB, fA] } } :=
  ⟨(config_validated_at_construction 0 [fA]).1.mpr (Or.inl (by decide)),
    (config_validated_at_construction 3 []).1.mpr (Or.inr rfl),
    (config_validated_at_construction 2 [fB, fA]).2.2.1 (by decide) (by simp)⟩

/-- C9: every request body built by handleOptimize carries exactly one
of job_text and job_url — job_text exactly in text mode, job_url exactly
in url mode — with parallel always true and the trimmed resume content;
and no request is built when the trimmed resume content or job input is
empty or another request is in flight. -/
theorem handleOptimize_request_invariant (s : OptimizeState) :
    (∀ p, handleOptimize s = some p →
        p.parallel = some true
        ∧ (p.job_text.isSome ↔ s.jobMode = JobMode.text)
        ∧ (p.job_url.isSome ↔ s.jobMode = JobMode.url)
        ∧ p.job_text.isSome = !p.job_url.isSome
        ∧ p.resume_content = jsTrim s.resumeContent
        ∧ p.max_iterations = none)
    ∧ (jsTrim s.resumeContent = "" ∨ jsTrim s.jobInput = "" ∨ s.loading = true →
        handleOptimize s = none) := by
  obtain ⟨rc, ji, jm, ld⟩ := s
  constructor
  · intro p hp
    unfold handleOptimize at hp
    split at hp
    · exact absurd hp (by simp)
    · rcases Option.some.inj hp with rfl
      cases jm <;> simp
  · intro h
    unfold handleOptimize canOptimize hasResume hasJob
    rcases h with h | h | h <;> simp at h <;> simp [h]

/-- A page state ready to optimize in url mode. -/
def sW : OptimizeState :=
  { resumeContent := " my resume ", jobInput := "https://example.com/job",
    jobMode := JobMode.url, loading := false }

/-- The request body handleOptimize builds from sW. -/
def pW : OptimizeParams :=
  { resume_content := "my resume", job_text := none,
    job_url := some "https://example.com/job", max_iterations := none,
    parallel := some true }

/-- Witness for C9: the concrete request from sW, and the absence of a
request while one is in flight. -/
theorem handleOptimize_request_invariant_inst :
    handleOptimize sW = some pW
    ∧ (pW.parallel = some true
        ∧ (pW.job_text.isSome ↔ sW.jobMode = JobMode.text)
        ∧ (pW.job_url.isSome ↔ sW.jobMode = JobMode.url)
        ∧ pW.job_text.isSome = !pW.job_url.isSome
        ∧ pW.resume_content = jsTrim sW.resumeContent
        ∧ pW.max_iterations = none)
    ∧ handleOptimize { sW with loading := true } = none :=
  ⟨by decide,
    (handleOptimize_request_invariant sW).1 pW (by decide),
    (handleOptimize_request_invariant { sW with loading := true }).2
      (Or.inr (Or.inr rfl))⟩

/-- A response whose pdf fields are non-null but whose filename is the
empty string. -/
def cexResp : OptimizeResponse :=
  { success := true, pdf_base64 := some "JVBERi0=", pdf_filename := some "",
    validation := { passed := true, results := [] },
    job := { title := "", company := "", requirements := [], keywords := [],
             description := "" },
    error := none }

/-- Counterexample to C10 as stated: both pdf_filename and pdf_base64
are non-null, yet the result view does not offer the download link,
because the guard in the result block tests JavaScript truthiness and
the empty-string filename is falsy. -/
theorem pdf_link_nonnull_counterexample :
    cexResp.pdf_filename ≠ none ∧ cexResp.pdf_base64 ≠ none
    ∧ showsPdfLink cexResp = false := by
  refine ⟨by simp [cexResp], by simp [cexResp], rfl⟩

/-- C10 (amended): the result view offers the rendered PDF for download
exactly when pdf_filename and pdf_base64 are both non-null and
non-empty (JavaScript-truthy), independently of validation.passed — a
run that failed validation can still deliver the PDF artifact — and
validation.passed selects only the status message shown. -/
theorem pdf_link_truthiness (r : OptimizeResponse) (v : ValidationResultOut)
    (f b : Option String) :
    showsPdfLink { r with validation := v } = showsPdfLink r
    ∧ (showsPdfLink r = true ↔
        (∃ fn, r.pdf_filename = some fn ∧ fn ≠ "")
        ∧ (∃ bs, r.pdf_base64 = some bs ∧ bs ≠ ""))
    ∧ statusMessage { r with pdf_filename := f, pdf_base64 := b } = statusMessage r
    ∧ (statusMessage r = "Все проверки пройдены." ↔ r.validation.passed = true) := by
  refine ⟨rfl, ?_, rfl, ?_⟩
  · unfold showsPdfLink truthyStr
    cases r.pdf_filename <;> cases r.pdf_base64 <;> simp
  · unfold statusMessage
    split
    · rename_i hp
      simp [hp]
    · rename_i hp
      simp only [Bool.not_eq_true] at hp
      simp [hp]

end HrBreaker
